import Mathlib

/-!
Verification of the Si4703 FM-tuner control engine (src/Si4703.cpp, src/Si4703.h).

The C++ driver keeps a 16-word register shadow, synchronizes it over a
2-wire bus (getShadow / putShadow), and layers band configuration
(setRegion), tuning (setChannel / incChannel / decChannel), seeking
(seek / seekUp / seekDown), volume control (setVolume / incVolume /
decVolume) and a power sequencer (powerUp) on top of it.

The shallow embedding below mirrors those functions.  Hardware responses
(acknowledge bits, bytes delivered on the bus, status fields reported by
the chip) are passed in as explicit parameters; where a claim assumes the
chip echoes a commanded field back (READCHAN echoing CHAN, the volume
field reading back what was written), the embedding applies that
assumption by reading the value that was just stored.  Machine integers
are modelled as Int (AVR int arithmetic never overflows 16 bits in the
reachable value ranges used here) and bit-fields as Nat with explicit
division / modulus by powers of two.
-/

namespace Si4703

/-- Band range and channel spacing kept by the driver
(`_bandStart`, `_bandEnd`, `_bandSpacing` in Si4703.h, units of 10 kHz,
e.g. 8750 = 87.5 MHz). -/
structure Config where
  bandStart : Int
  bandEnd : Int
  bandSpacing : Int
deriving DecidableEq

/-- Band selector `BAND_US_EU` (0b00): USA / Europe 87.5 to 108 MHz. -/
def BAND_US_EU : Int := 0
/-- Band selector `BAND_JPW` (0b01): wide Japanese band 76 to 108 MHz. -/
def BAND_JPW : Int := 1
/-- Band selector `BAND_JP` (0b10): narrow Japanese band 76 to 90 MHz. -/
def BAND_JP : Int := 2
/-- Spacing selector `SPACE_200KHz` (0b00). -/
def SPACE_200KHz : Int := 0
/-- Spacing selector `SPACE_100KHz` (0b01). -/
def SPACE_100KHz : Int := 1
/-- Spacing selector `SPACE_50KHz` (0b10). -/
def SPACE_50KHz : Int := 2

/-- Model of `Si4703::setRegion`: two independent switch statements translate the
band selector into band bounds and the spacing selector into the channel
spacing; unknown selectors leave the previous values in place. -/
def setRegion (band spc : Int) (c : Config) : Config :=
  let c1 :=
    if band = BAND_US_EU then ⟨8750, 10800, c.bandSpacing⟩
    else if band = BAND_JPW then ⟨7600, 10800, c.bandSpacing⟩
    else if band = BAND_JP then ⟨7600, 9000, c.bandSpacing⟩
    else c
  if spc = SPACE_100KHz then ⟨c1.bandStart, c1.bandEnd, 10⟩
  else if spc = SPACE_200KHz then ⟨c1.bandStart, c1.bandEnd, 20⟩
  else if spc = SPACE_50KHz then ⟨c1.bandStart, c1.bandEnd, 5⟩
  else c1

/-- A configuration reachable through `setRegion` with one of the three
supported band selectors and one of the three supported spacing
selectors (the only way the driver ever sets the band fields). -/
def ConfigOK (c : Config) : Prop :=
  ∃ b s : Int, ∃ prev : Config, (b = 0 ∨ b = 1 ∨ b = 2) ∧ (s = 0 ∨ s = 1 ∨ s = 2) ∧
    c = setRegion b s prev

/-- The clamp at the top of `Si4703::setChannel`:
`if (freq > _bandEnd) freq = _bandEnd; if (freq < _bandStart) freq = _bandStart;`. -/
def clampFreq (c : Config) (freq : Int) : Int :=
  let f1 := if freq > c.bandEnd then c.bandEnd else freq
  if f1 < c.bandStart then c.bandStart else f1

/-- The CHAN value written by `Si4703::setChannel`:
`(freq - _bandStart) / _bandSpacing` with C truncating division, stored
into the 10-bit CHAN bit-field (hence reduced modulo 2^10). -/
def chanOf (c : Config) (freq : Int) : Nat :=
  (((freq - c.bandStart).tdiv c.bandSpacing).emod 1024).toNat

/-- Model of `Si4703::getChannel`: reads the 10-bit READCHAN field `rc` and returns
`_bandSpacing * READCHAN + _bandStart`. -/
def getChannel (c : Config) (rc : Nat) : Int :=
  c.bandSpacing * ((rc % 1024 : Nat) : Int) + c.bandStart

/-- Model of `Si4703::setChannel` under the assumption that the chip's READCHAN
field echoes the commanded CHAN value: returns the CHAN field written
together with the frequency recomputed from it (the function's return
value `getChannel()`). -/
def setChannel (c : Config) (freq : Int) : Nat × Int :=
  let f := clampFreq c freq
  let chan := chanOf c f
  (chan, c.bandSpacing * (chan : Int) + c.bandStart)

/-- Model of `Si4703::incChannel`: one spacing step up from the current frequency
(read from READCHAN field `rc`), wrapping to `_bandStart` past `_bandEnd`,
then `setChannel`. -/
def incChannel (c : Config) (rc : Nat) : Nat × Int :=
  let freq := getChannel c rc + c.bandSpacing
  let f := if freq > c.bandEnd then c.bandStart else freq
  setChannel c f

/-- Model of `Si4703::decChannel`: one spacing step down, wrapping to `_bandEnd`
below `_bandStart`, then `setChannel`. -/
def decChannel (c : Config) (rc : Nat) : Nat × Int :=
  let freq := getChannel c rc - c.bandSpacing
  let f := if freq < c.bandStart then c.bandEnd else freq
  setChannel c f

/-- The 4-bit VOLUME field (bits 0-3 of SYSCONFIG2, word 11 of the shadow). -/
def volumeField (w : Nat) : Nat := w % 16

/-- Model of `Si4703::setVolume` on the SYSCONFIG2 word `w`, under the assumption
that the transport echoes the written register back on the next read:
clamps the argument to 0..15, stores it in the 4-bit VOLUME field, and
returns the final `getVolume()` read of that field. -/
def setVolume (w : Nat) (volume : Int) : Nat × Int :=
  let v1 := if volume < 0 then 0 else volume
  let v2 := if v1 > 15 then 15 else v1
  let w2 := w / 16 * 16 + v2.toNat % 16
  (w2, (volumeField w2 : Int))

/-- Model of `Si4703::incVolume`: `setVolume(getVolume() + 1)`. -/
def incVolume (w : Nat) : Nat × Int :=
  setVolume w ((volumeField w : Int) + 1)

/-- Model of `Si4703::decVolume`: `setVolume(getVolume() - 1)`. -/
def decVolume (w : Nat) : Nat × Int :=
  setVolume w ((volumeField w : Int) - 1)

/-- One primitive action on the 2-wire bus, as issued by the driver. -/
inductive BusEv where
  | start : BusEv
  | writeByte : Nat → BusEv
  | readByte : Nat → Bool → BusEv
  | stop : BusEv
deriving DecidableEq

/-- Device address (7-bit) of the Si4703 (`I2C_ADDR = 0x10`). -/
def I2C_ADDR : Nat := 0x10

/-- The 32 byte reads of a full shadow read: two bytes per word, most
significant byte first; the master acknowledges every byte except the
very last one of the transfer. -/
def readEvents (bytes : Nat → Nat) : List BusEv :=
  (List.range 32).map (fun k => BusEv.readByte (bytes k % 256) (decide (k < 31)))

/-- Model of `Si4703::getShadow`: start, address byte with the read bit; if the
device does not acknowledge, stop and return with the shadow untouched;
otherwise read 32 bytes and assemble the 16 shadow words
(`word[i] = msb << 8 | lsb`, bytes delivered by the environment
function `bytes`). -/
def getShadow (ack : Bool) (bytes : Nat → Nat) (sh : Fin 16 → Nat) :
    List BusEv × (Fin 16 → Nat) :=
  if ack then
    (BusEv.start :: BusEv.writeByte ((I2C_ADDR <<< 1) ||| 1) :: readEvents bytes
        ++ [BusEv.stop],
     fun i => (bytes (2 * i.val) % 256) * 256 + bytes (2 * i.val + 1) % 256)
  else
    ([BusEv.start, BusEv.writeByte ((I2C_ADDR <<< 1) ||| 1), BusEv.stop], sh)

/-- The two bytes a 16-bit register is sent as: upper byte then lower byte. -/
def wordBytes (w : Nat) : List Nat := [w / 256 % 256, w % 256]

/-- The six control words written by `Si4703::putShadow`: shadow words
8..13, which hold device registers 0x02..0x07. -/
def controlWords (sh : Fin 16 → Nat) : List Nat :=
  [sh 8, sh 9, sh 10, sh 11, sh 12, sh 13]

/-- The 12-byte payload of a control write, in ascending register order,
upper byte before lower byte. -/
def controlBytes (sh : Fin 16 → Nat) : List Nat :=
  (controlWords sh).flatMap wordBytes

/-- The per-register loop of `Si4703::putShadow`.  `acks n` is the
acknowledge the device returns for the n-th byte written from here on.
Sends upper then lower byte of each word; stops the transaction and
returns 2 on a not-acknowledged upper byte, 3 on a not-acknowledged
lower byte, 0 after the last word. -/
def putLoop (acks : Nat → Bool) : List Nat → Nat × List BusEv
  | [] => (0, [BusEv.stop])
  | w :: ws =>
    if acks 0 then
      if acks 1 then
        let p := putLoop (fun n => acks (n + 2)) ws
        (p.1, BusEv.writeByte (w / 256 % 256) :: BusEv.writeByte (w % 256) :: p.2)
      else (3, [BusEv.writeByte (w / 256 % 256), BusEv.writeByte (w % 256), BusEv.stop])
    else (2, [BusEv.writeByte (w / 256 % 256), BusEv.stop])

/-- Model of `Si4703::putShadow`: start, address byte with the write bit (returns 1
and stops if not acknowledged), then the six-register loop.  `acks n` is
the device's acknowledge for the n-th byte of the transaction (byte 0 is
the address byte). -/
def putShadow (acks : Nat → Bool) (sh : Fin 16 → Nat) : Nat × List BusEv :=
  if acks 0 then
    let p := putLoop (fun n => acks (n + 1)) (controlWords sh)
    (p.1, BusEv.start :: BusEv.writeByte (I2C_ADDR <<< 1) :: p.2)
  else (1, [BusEv.start, BusEv.writeByte (I2C_ADDR <<< 1), BusEv.stop])

/-- Extract the bit-field of width `len` starting at bit `lo` of word `w`. -/
def getField (w lo len : Nat) : Nat := w / 2 ^ lo % 2 ^ len

/-- Store value `v` into the bit-field of width `len` at bit `lo` of word
`w` (the C bit-field assignment: the value silently truncates to `len`
bits, all other bits keep their value). -/
def setField (w lo len v : Nat) : Nat :=
  w % 2 ^ lo + v % 2 ^ len * 2 ^ lo + w / 2 ^ (lo + len) * 2 ^ (lo + len)

/-- One step of the power-up sequence as observed from outside: a full
shadow read, a control write of a given shadow, or a fixed blocking
delay in milliseconds. -/
inductive TraceEv where
  | readShadow : TraceEv
  | writeShadow : (Fin 16 → Nat) → TraceEv
  | delay : Nat → TraceEv

/-- Model of `Si4703::powerUp`, with `r1` and `r2` the shadows delivered by its two
`getShadow()` calls.  First write: XOSCEN (bit 15 of TEST1, shadow word
13) set.  Second write: ENABLE (bit 0 of POWERCFG, shadow word 8) set,
DISABLE (bit 6) cleared, DMUTE (bit 14) set.  Delays: 500 ms after the
oscillator write, 110 ms after the enable write. -/
def powerUp (r1 r2 : Fin 16 → Nat) : List TraceEv :=
  let s1 := Function.update r1 13 (setField (r1 13) 15 1 1)
  let s2 := Function.update r2 8
    (setField (setField (setField (r2 8) 0 1 1) 6 1 0) 14 1 1)
  [TraceEv.readShadow, TraceEv.writeShadow s1, TraceEv.delay 500,
   TraceEv.readShadow, TraceEv.writeShadow s2, TraceEv.delay 110]

/-- The shadows written by the control writes of a trace, in order. -/
def writesOf (tr : List TraceEv) : List (Fin 16 → Nat) :=
  tr.filterMap (fun e =>
    match e with
    | TraceEv.writeShadow s => some s
    | _ => none)

/-- An all-zero register shadow. -/
def zeroShadow : Fin 16 → Nat := fun _ => 0

/-- A tuner-level action of the seek machinery: activating the seek-start
bit with a direction (true = up), or tuning to a target frequency via
`setChannel`. -/
inductive SeekAct where
  | seekStart : Bool → SeekAct
  | tuneTo : Int → SeekAct
deriving DecidableEq

/-- Model of `Si4703::seek`: after completion the driver reads the SFBL flag and
the READCHAN field `rc`; it returns 0 when SFBL was set and otherwise
`getChannel()` computed from READCHAN. -/
def seek (c : Config) (sfbl : Bool) (rc : Nat) : Int :=
  if sfbl then 0 else getChannel c rc

/-- Model of `Si4703::seekUp` with environment `env n` = (SFBL, READCHAN) observed
by the n-th `seek` invocation: one seek up; on the failure sentinel,
tune to `_bandStart` and seek up exactly once more.  Also records the
tuner-level actions performed. -/
def seekUp (c : Config) (env : Nat → Bool × Nat) : Int × List SeekAct :=
  let r0 := seek c (env 0).1 (env 0).2
  if r0 = 0 then
    (seek c (env 1).1 (env 1).2,
     [SeekAct.seekStart true, SeekAct.tuneTo c.bandStart, SeekAct.seekStart true])
  else (r0, [SeekAct.seekStart true])

/-- Model of `Si4703::seekDown`: one seek down; on the failure sentinel, tune to
`_bandEnd` and seek down exactly once more. -/
def seekDown (c : Config) (env : Nat → Bool × Nat) : Int × List SeekAct :=
  let r0 := seek c (env 0).1 (env 0).2
  if r0 = 0 then
    (seek c (env 1).1 (env 1).2,
     [SeekAct.seekStart false, SeekAct.tuneTo c.bandEnd, SeekAct.seekStart false])
  else (r0, [SeekAct.seekStart false])

/-- Number of seek-start activations in an action list. -/
def seekStarts (l : List SeekAct) : Nat :=
  (l.filter (fun a =>
    match a with
    | SeekAct.seekStart _ => true
    | _ => false)).length

/-- The default configuration of the driver: US/EU band with 100 kHz
spacing, i.e. (8750, 10800, 10). -/
def cfg0 : Config := setRegion BAND_US_EU SPACE_100KHz ⟨0, 0, 0⟩

/-- The US/EU band with 200 kHz spacing: (8750, 10800, 20); the band width
2050 is not a multiple of the spacing 20. -/
def cfgUS200 : Config := setRegion BAND_US_EU SPACE_200KHz ⟨0, 0, 0⟩

/-- A sample register shadow with distinguishable word values. -/
def shW : Fin 16 → Nat := fun i => 4097 * i.val + 3

/-! Helper lemmas. -/

/-- With a recognized band selector and a recognized spacing selector,
`setRegion` ignores the previous configuration entirely; the nine
reachable configurations. -/
theorem setRegion_eval (prev : Config) :
    setRegion 0 0 prev = ⟨8750, 10800, 20⟩ ∧ setRegion 0 1 prev = ⟨8750, 10800, 10⟩ ∧
    setRegion 0 2 prev = ⟨8750, 10800, 5⟩ ∧ setRegion 1 0 prev = ⟨7600, 10800, 20⟩ ∧
    setRegion 1 1 prev = ⟨7600, 10800, 10⟩ ∧ setRegion 1 2 prev = ⟨7600, 10800, 5⟩ ∧
    setRegion 2 0 prev = ⟨7600, 9000, 20⟩ ∧ setRegion 2 1 prev = ⟨7600, 9000, 10⟩ ∧
    setRegion 2 2 prev = ⟨7600, 9000, 5⟩ :=
  ⟨rfl, rfl, rfl, rfl, rfl, rfl, rfl, rfl, rfl⟩

/-- Every configuration reachable through `setRegion` has positive
spacing, positive band bounds in order, and a band width below 1024
spacing steps (in fact its step count is at most 640). -/
theorem configOK_facts (c : Config) (h : ConfigOK c) :
    0 < c.bandSpacing ∧ 0 < c.bandStart ∧ c.bandStart ≤ c.bandEnd ∧
      (c.bandEnd - c.bandStart) / c.bandSpacing ≤ 640 ∧
      c.bandEnd - c.bandStart < 1024 * c.bandSpacing := by
  obtain ⟨b, s, prev, hb, hs, rfl⟩ := h
  rcases hb with rfl | rfl | rfl <;> rcases hs with rfl | rfl | rfl
  · rw [(setRegion_eval prev).1]; decide
  · rw [(setRegion_eval prev).2.1]; decide
  · rw [(setRegion_eval prev).2.2.1]; decide
  · rw [(setRegion_eval prev).2.2.2.1]; decide
  · rw [(setRegion_eval prev).2.2.2.2.1]; decide
  · rw [(setRegion_eval prev).2.2.2.2.2.1]; decide
  · rw [(setRegion_eval prev).2.2.2.2.2.2.1]; decide
  · rw [(setRegion_eval prev).2.2.2.2.2.2.2.1]; decide
  · rw [(setRegion_eval prev).2.2.2.2.2.2.2.2]; decide

/-- Clamping is the identity on in-band frequencies. -/
theorem clampFreq_of_mem (c : Config) (freq : Int)
    (h1 : c.bandStart ≤ freq) (h2 : freq ≤ c.bandEnd) : clampFreq c freq = freq := by
  simp only [clampFreq]
  split_ifs <;> omega

/-- On an in-band frequency of a valid configuration, the CHAN field
written by `setChannel` is the exact step count (no 10-bit truncation). -/
theorem setChannel_fst (c : Config) (hsp : 0 < c.bandSpacing)
    (hw : c.bandEnd - c.bandStart < 1024 * c.bandSpacing)
    (freq : Int) (h1 : c.bandStart ≤ freq) (h2 : freq ≤ c.bandEnd) :
    (setChannel c freq).1 = ((freq - c.bandStart) / c.bandSpacing).toNat := by
  have hd : (0 : Int) ≤ freq - c.bandStart := by omega
  have hq0 : 0 ≤ (freq - c.bandStart) / c.bandSpacing := Int.ediv_nonneg hd (le_of_lt hsp)
  have hqlt : (freq - c.bandStart) / c.bandSpacing < 1024 := by
    rw [Int.ediv_lt_iff_lt_mul hsp]; omega
  simp only [setChannel, chanOf, clampFreq_of_mem c freq h1 h2,
    Int.tdiv_eq_ediv hd (le_of_lt hsp),
    show ((freq - c.bandStart) / c.bandSpacing).emod 1024 =
        (freq - c.bandStart) / c.bandSpacing from Int.emod_eq_of_lt hq0 hqlt]

/-- On an in-band frequency of a valid configuration, `setChannel`
returns `bandStart` plus spacing times the exact step count. -/
theorem setChannel_snd (c : Config) (hsp : 0 < c.bandSpacing)
    (hw : c.bandEnd - c.bandStart < 1024 * c.bandSpacing)
    (freq : Int) (h1 : c.bandStart ≤ freq) (h2 : freq ≤ c.bandEnd) :
    (setChannel c freq).2 =
      c.bandSpacing * ((freq - c.bandStart) / c.bandSpacing) + c.bandStart := by
  have hd : (0 : Int) ≤ freq - c.bandStart := by omega
  have hq0 : 0 ≤ (freq - c.bandStart) / c.bandSpacing := Int.ediv_nonneg hd (le_of_lt hsp)
  have hfst := setChannel_fst c hsp hw freq h1 h2
  show c.bandSpacing * (((setChannel c freq).1 : Nat) : Int) + c.bandStart = _
  rw [hfst, Int.toNat_of_nonneg hq0]

/-- The function `setVolume` always returns the input clamped to the 0..15 range. -/
theorem setVolume_snd (w : Nat) (v : Int) :
    (setVolume w v).2 = max 0 (min 15 v) := by
  simp only [setVolume, volumeField]
  split_ifs <;> omega

/-- The value of `getChannel` in a valid configuration is strictly positive. -/
theorem getChannel_pos (c : Config) (h : ConfigOK c) (rc : Nat) :
    0 < getChannel c rc := by
  obtain ⟨hsp, hbs, -, -, -⟩ := configOK_facts c h
  have : (0 : Int) ≤ c.bandSpacing * ((rc % 1024 : Nat) : Int) :=
    mul_nonneg (le_of_lt hsp) (Int.natCast_nonneg _)
  simp only [getChannel]
  linarith

/-- The configuration `cfg0` is a reachable configuration. -/
theorem cfg0_ok : ConfigOK cfg0 :=
  ⟨BAND_US_EU, SPACE_100KHz, ⟨0, 0, 0⟩, by decide, by decide, rfl⟩

/-! Claim theorems. -/

/-- Claim C1: for every in-band frequency of a configuration set by
`setRegion`, `setChannel(freq)` returns `bandStart + k * spacing` for
some integer `k >= 0`, and the returned value differs from `freq` by
strictly less than one spacing step (assuming READCHAN echoes the
commanded channel). -/
theorem setChannel_on_grid (c : Config) (hc : ConfigOK c) (freq : Int)
    (h1 : c.bandStart ≤ freq) (h2 : freq ≤ c.bandEnd) :
    ∃ k : Int, 0 ≤ k ∧ (setChannel c freq).2 = c.bandStart + k * c.bandSpacing ∧
      |(setChannel c freq).2 - freq| < c.bandSpacing := by
  obtain ⟨hsp, hbs, hse, hq640, hw⟩ := configOK_facts c hc
  have hd : (0 : Int) ≤ freq - c.bandStart := by omega
  have hsnd := setChannel_snd c hsp hw freq h1 h2
  refine ⟨(freq - c.bandStart) / c.bandSpacing,
    Int.ediv_nonneg hd (le_of_lt hsp), by rw [hsnd]; ring, ?_⟩
  have hle := Int.ediv_mul_le (freq - c.bandStart) (ne_of_gt hsp)
  rw [mul_comm] at hle
  have hmod : freq - c.bandStart -
      c.bandSpacing * ((freq - c.bandStart) / c.bandSpacing) < c.bandSpacing := by
    have hx := Int.emod_lt_of_pos (freq - c.bandStart) hsp
    rw [Int.emod_def] at hx
    linarith
  rw [hsnd, abs_sub_lt_iff]
  constructor <;> linarith

/-- Claim C1 witness: the default configuration at 97.35 MHz. -/
theorem setChannel_on_grid_witness :
    ∃ k : Int, 0 ≤ k ∧ (setChannel cfg0 9735).2 = cfg0.bandStart + k * cfg0.bandSpacing ∧
      |(setChannel cfg0 9735).2 - 9735| < cfg0.bandSpacing :=
  setChannel_on_grid cfg0 cfg0_ok 9735 (by decide) (by decide)

/-- Claim C2: `setChannel` on an out-of-range frequency performs the same
computation (same CHAN field written, same value returned) as on the
nearer band edge: inputs above `bandEnd` behave as `bandEnd`, inputs
below `bandStart` behave as `bandStart`. -/
theorem setChannel_clamps (c : Config) (freq : Int) :
    (c.bandEnd < freq → setChannel c freq = setChannel c c.bandEnd) ∧
    (freq < c.bandStart → setChannel c freq = setChannel c c.bandStart) := by
  refine ⟨fun h => ?_, fun h => ?_⟩
  · have he : clampFreq c freq = clampFreq c c.bandEnd := by
      simp only [clampFreq]; split_ifs <;> omega
    simp only [setChannel, he]
  · have he : clampFreq c freq = clampFreq c c.bandStart := by
      simp only [clampFreq]; split_ifs <;> omega
    simp only [setChannel, he]

/-- Claim C2 witness: 110.00 MHz clamps to the upper band edge, 50.00 MHz
to the lower, in the default configuration. -/
theorem setChannel_clamps_witness :
    setChannel cfg0 11000 = setChannel cfg0 cfg0.bandEnd ∧
    setChannel cfg0 5000 = setChannel cfg0 cfg0.bandStart :=
  ⟨(setChannel_clamps cfg0 11000).1 (by decide),
   (setChannel_clamps cfg0 5000).2 (by decide)⟩

/-- Claim C5: when the device does not acknowledge the addressing byte of
a shadow read, `getShadow` stops the bus transaction immediately and
returns with all 16 shadow words unchanged; its interface carries no
error indication (the function result consists of the bus events and the
shadow only). -/
theorem getShadow_silent_abort (bytes : Nat → Nat) (sh : Fin 16 → Nat) :
    getShadow false bytes sh =
      ([BusEv.start, BusEv.writeByte 0x21, BusEv.stop], sh) ∧
    ∀ i : Fin 16, (getShadow false bytes sh).2 i = sh i :=
  ⟨rfl, fun _ => rfl⟩

/-- Claim C8: the `setRegion` lookup tables.  Band selectors map
`BAND_US_EU` to (8750, 10800), `BAND_JPW` to (7600, 10800) and `BAND_JP`
to (7600, 9000); spacing selectors map `SPACE_100KHz` to 10,
`SPACE_200KHz` to 20 and `SPACE_50KHz` to 5 (in units of 10 kHz, i.e.
100 kHz, 200 kHz and 50 kHz); an unrecognized band selector keeps the
previous band bounds and an unrecognized spacing selector keeps the
previous spacing, with no error raised (the function still returns
normally). -/
theorem setRegion_table (c : Config) (b s : Int) :
    ((setRegion BAND_US_EU s c).bandStart = 8750 ∧
      (setRegion BAND_US_EU s c).bandEnd = 10800) ∧
    ((setRegion BAND_JPW s c).bandStart = 7600 ∧
      (setRegion BAND_JPW s c).bandEnd = 10800) ∧
    ((setRegion BAND_JP s c).bandStart = 7600 ∧
      (setRegion BAND_JP s c).bandEnd = 9000) ∧
    (setRegion b SPACE_100KHz c).bandSpacing = 10 ∧
    (setRegion b SPACE_200KHz c).bandSpacing = 20 ∧
    (setRegion b SPACE_50KHz c).bandSpacing = 5 ∧
    (¬(b = BAND_US_EU ∨ b = BAND_JPW ∨ b = BAND_JP) →
      (setRegion b s c).bandStart = c.bandStart ∧
      (setRegion b s c).bandEnd = c.bandEnd) ∧
    (¬(s = SPACE_200KHz ∨ s = SPACE_100KHz ∨ s = SPACE_50KHz) →
      (setRegion b s c).bandSpacing = c.bandSpacing) := by
  simp only [setRegion, BAND_US_EU, BAND_JPW, BAND_JP,
    SPACE_100KHz, SPACE_200KHz, SPACE_50KHz]
  refine ⟨?_, ?_, ?_, ?_, ?_, ?_, fun h => ?_, fun h => ?_⟩ <;>
    split_ifs <;> simp_all

/-- Claim C8 witness: the unrecognized selectors 7 and 9 leave a previous
configuration (1, 2, 3) untouched. -/
theorem setRegion_table_witness :
    ((setRegion 7 9 ⟨1, 2, 3⟩).bandStart = 1 ∧ (setRegion 7 9 ⟨1, 2, 3⟩).bandEnd = 2) ∧
    (setRegion 7 9 ⟨1, 2, 3⟩).bandSpacing = 3 :=
  ⟨(setRegion_table ⟨1, 2, 3⟩ 7 9).2.2.2.2.2.2.1 (by decide),
   (setRegion_table ⟨1, 2, 3⟩ 7 9).2.2.2.2.2.2.2 (by decide)⟩

/-- Claim C9: `setVolume` stores and returns its argument clamped to
0..15 (under the transport-echo assumption), so `incVolume` at volume 15
returns 15 and `decVolume` at volume 0 returns 0. -/
theorem setVolume_clamps (w : Nat) (v : Int) :
    (setVolume w v).2 = max 0 (min 15 v) ∧
    0 ≤ (setVolume w v).2 ∧ (setVolume w v).2 ≤ 15 ∧
    (volumeField (setVolume w v).1 : Int) = max 0 (min 15 v) ∧
    (volumeField w = 15 → (incVolume w).2 = 15) ∧
    (volumeField w = 0 → (decVolume w).2 = 0) := by
  have hsnd := setVolume_snd w v
  have hfield : (volumeField (setVolume w v).1 : Int) = (setVolume w v).2 := rfl
  refine ⟨hsnd, by rw [hsnd]; omega, by rw [hsnd]; omega, by rw [hfield, hsnd], ?_, ?_⟩
  · intro h
    simp only [incVolume, h]
    rw [setVolume_snd]
    decide
  · intro h
    simp only [decVolume, h]
    rw [setVolume_snd]
    decide

/-- Claim C9 witness: volume 20 clamps to 15; stepping up from 15 stays
at 15; stepping down from 0 (SYSCONFIG2 word 32, volume field 0) stays
at 0. -/
theorem setVolume_clamps_witness :
    (setVolume 15 20).2 = 15 ∧ (incVolume 15).2 = 15 ∧ (decVolume 32).2 = 0 :=
  ⟨by rw [(setVolume_clamps 15 20).1]; decide,
   (setVolume_clamps 15 0).2.2.2.2.1 (by decide),
   (setVolume_clamps 32 0).2.2.2.2.2 (by decide)⟩

/-- Claim C3 (amended): `incChannel` at `bandEnd` wraps and returns
`bandStart` exactly; `decChannel` at `bandStart` wraps to `bandEnd` but
returns the highest grid frequency not above it,
`bandStart + spacing * ((bandEnd - bandStart) / spacing)`, which equals
`bandEnd` exactly when the spacing divides the band width. -/
theorem incDec_wrap (c : Config) (hc : ConfigOK c) (rcInc rcDec : Nat)
    (hinc : getChannel c rcInc = c.bandEnd) (hdec : getChannel c rcDec = c.bandStart) :
    (incChannel c rcInc).2 = c.bandStart ∧
    (decChannel c rcDec).2 =
      c.bandStart + c.bandSpacing * ((c.bandEnd - c.bandStart).tdiv c.bandSpacing) ∧
    (c.bandSpacing ∣ (c.bandEnd - c.bandStart) → (decChannel c rcDec).2 = c.bandEnd) := by
  obtain ⟨hsp, hbs, hse, hq640, hw⟩ := configOK_facts c hc
  have hgt : getChannel c rcInc + c.bandSpacing > c.bandEnd := by omega
  have hlt : getChannel c rcDec - c.bandSpacing < c.bandStart := by omega
  have hd : (0 : Int) ≤ c.bandEnd - c.bandStart := by omega
  have hdecval : (decChannel c rcDec).2 =
      c.bandStart + c.bandSpacing * ((c.bandEnd - c.bandStart).tdiv c.bandSpacing) := by
    simp only [decChannel]
    rw [if_pos hlt, setChannel_snd c hsp hw c.bandEnd hse le_rfl,
      Int.tdiv_eq_ediv hd (le_of_lt hsp)]
    ring
  refine ⟨?_, hdecval, fun hdvd => ?_⟩
  · simp only [incChannel]
    rw [if_pos hgt, setChannel_snd c hsp hw c.bandStart le_rfl hse]
    simp
  · rw [hdecval, Int.tdiv_eq_ediv hd (le_of_lt hsp), Int.mul_ediv_cancel' hdvd]
    ring

/-- Claim C3 counterexample: in the US/EU band with 200 kHz spacing
(a reachable configuration, band width 2050 not a multiple of 20),
`decChannel` called while tuned to `bandStart` returns 10790, not
`bandEnd` = 10800. -/
theorem decChannel_edge_cex :
    getChannel cfgUS200 0 = cfgUS200.bandStart ∧
    (decChannel cfgUS200 0).2 = 10790 ∧ cfgUS200.bandEnd = 10800 := by decide

/-- Claim C3 witness: default configuration (spacing 10 divides the band
width): stepping up from 10800 returns 8750, stepping down from 8750
lands on the top grid point, which here is `bandEnd` itself. -/
theorem incDec_wrap_witness :
    (incChannel cfg0 205).2 = cfg0.bandStart ∧
    (decChannel cfg0 0).2 =
      cfg0.bandStart + cfg0.bandSpacing * ((cfg0.bandEnd - cfg0.bandStart).tdiv cfg0.bandSpacing) ∧
    (cfg0.bandSpacing ∣ (cfg0.bandEnd - cfg0.bandStart) → (decChannel cfg0 0).2 = cfg0.bandEnd) :=
  incDec_wrap cfg0 cfg0_ok 205 0 (by decide) (by decide)

/-- Claim C10: for every supported band selector and spacing selector and
every in-band frequency, the channel index `(freq - bandStart) / spacing`
computed by `setChannel` is at most 640, and the CHAN field written is
exactly that index (no 10-bit truncation occurs). -/
theorem chanIndex_fits (b s : Int) (hb : b = 0 ∨ b = 1 ∨ b = 2)
    (hs : s = 0 ∨ s = 1 ∨ s = 2) (c0 : Config) (freq : Int)
    (h1 : (setRegion b s c0).bandStart ≤ freq)
    (h2 : freq ≤ (setRegion b s c0).bandEnd) :
    (freq - (setRegion b s c0).bandStart).tdiv (setRegion b s c0).bandSpacing ≤ 640 ∧
    ((setChannel (setRegion b s c0) freq).1 : Int) =
      (freq - (setRegion b s c0).bandStart).tdiv (setRegion b s c0).bandSpacing := by
  have hc : ConfigOK (setRegion b s c0) := ⟨b, s, c0, hb, hs, rfl⟩
  set c := setRegion b s c0 with hcdef
  obtain ⟨hsp, hbs, hse, hq640, hw⟩ := configOK_facts c hc
  have hd : (0 : Int) ≤ freq - c.bandStart := by omega
  rw [Int.tdiv_eq_ediv hd (le_of_lt hsp)]
  constructor
  · have hmono := Int.ediv_le_ediv hsp
      (show freq - c.bandStart ≤ c.bandEnd - c.bandStart by omega)
    omega
  · rw [setChannel_fst c hsp hw freq h1 h2,
      Int.toNat_of_nonneg (Int.ediv_nonneg hd (le_of_lt hsp))]

/-- Claim C10 witness: the top of the US/EU band with 100 kHz spacing
gives channel index 205. -/
theorem chanIndex_fits_witness :
    ((10800 : Int) - (setRegion 0 1 ⟨0, 0, 0⟩).bandStart).tdiv
        (setRegion 0 1 ⟨0, 0, 0⟩).bandSpacing ≤ 640 ∧
    ((setChannel (setRegion 0 1 ⟨0, 0, 0⟩) 10800).1 : Int) =
      ((10800 : Int) - (setRegion 0 1 ⟨0, 0, 0⟩).bandStart).tdiv
        (setRegion 0 1 ⟨0, 0, 0⟩).bandSpacing :=
  chanIndex_fits 0 1 (by decide) (by decide) ⟨0, 0, 0⟩ 10800 (by decide) (by decide)

/-- Claim C4: `seek` returns the sentinel 0 exactly when the SFBL flag
was set at completion, and otherwise the newly tuned frequency;
`seekUp` / `seekDown` perform one seek activation on success, and on the
sentinel jump to the opposite band edge (`bandStart` for up, `bandEnd`
for down), seek once more in the same direction, and return the second
result; in every case at most two seek activations occur. -/
theorem seek_sentinel (c : Config) (hc : ConfigOK c) (sfbl : Bool) (rc : Nat)
    (env : Nat → Bool × Nat) :
    (seek c sfbl rc = 0 ↔ sfbl = true) ∧
    (sfbl = false → seek c sfbl rc = getChannel c rc) ∧
    ((env 0).1 = false →
      seekUp c env = (seek c (env 0).1 (env 0).2, [SeekAct.seekStart true]) ∧
      seekDown c env = (seek c (env 0).1 (env 0).2, [SeekAct.seekStart false])) ∧
    ((env 0).1 = true →
      seekUp c env = (seek c (env 1).1 (env 1).2,
        [SeekAct.seekStart true, SeekAct.tuneTo c.bandStart, SeekAct.seekStart true]) ∧
      seekDown c env = (seek c (env 1).1 (env 1).2,
        [SeekAct.seekStart false, SeekAct.tuneTo c.bandEnd, SeekAct.seekStart false])) ∧
    seekStarts (seekUp c env).2 ≤ 2 ∧ seekStarts (seekDown c env).2 ≤ 2 := by
  have hpos : ∀ n, getChannel c n ≠ 0 := fun n => ne_of_gt (getChannel_pos c hc n)
  have hseek : ∀ (b : Bool) (n : Nat), seek c b n = 0 ↔ b = true := by
    intro b n
    cases b
    · simp [seek, hpos n]
    · simp [seek]
  refine ⟨hseek sfbl rc, ?_, fun h0 => ?_, fun h0 => ?_, ?_, ?_⟩
  · intro h; simp [seek, h]
  · have hz : ¬seek c (env 0).1 (env 0).2 = 0 := by rw [hseek]; simp [h0]
    constructor <;> simp [seekUp, seekDown, hz]
  · have hz : seek c (env 0).1 (env 0).2 = 0 := by rw [hseek]; exact h0
    constructor <;> simp [seekUp, seekDown, hz]
  · by_cases hz : seek c (env 0).1 (env 0).2 = 0 <;>
      simp [seekUp, hz, seekStarts, List.filter]
  · by_cases hz : seek c (env 0).1 (env 0).2 = 0 <;>
      simp [seekDown, hz, seekStarts, List.filter]

/-- Claim C4 witness: in the default configuration, with the chip
reporting SFBL clear and READCHAN 100, one seek suffices. -/
theorem seek_sentinel_witness :
    (seek cfg0 false 100 = 0 ↔ false = true) ∧
    (false = false → seek cfg0 false 100 = getChannel cfg0 100) ∧
    (((fun _ : Nat => ((false, 100) : Bool × Nat)) 0).1 = false →
      seekUp cfg0 (fun _ => (false, 100)) =
        (seek cfg0 ((fun _ : Nat => ((false, 100) : Bool × Nat)) 0).1
          ((fun _ : Nat => ((false, 100) : Bool × Nat)) 0).2, [SeekAct.seekStart true]) ∧
      seekDown cfg0 (fun _ => (false, 100)) =
        (seek cfg0 ((fun _ : Nat => ((false, 100) : Bool × Nat)) 0).1
          ((fun _ : Nat => ((false, 100) : Bool × Nat)) 0).2, [SeekAct.seekStart false])) ∧
    (((fun _ : Nat => ((false, 100) : Bool × Nat)) 0).1 = true →
      seekUp cfg0 (fun _ => (false, 100)) =
        (seek cfg0 ((fun _ : Nat => ((false, 100) : Bool × Nat)) 1).1
          ((fun _ : Nat => ((false, 100) : Bool × Nat)) 1).2,
         [SeekAct.seekStart true, SeekAct.tuneTo cfg0.bandStart, SeekAct.seekStart true]) ∧
      seekDown cfg0 (fun _ => (false, 100)) =
        (seek cfg0 ((fun _ : Nat => ((false, 100) : Bool × Nat)) 1).1
          ((fun _ : Nat => ((false, 100) : Bool × Nat)) 1).2,
         [SeekAct.seekStart false, SeekAct.tuneTo cfg0.bandEnd, SeekAct.seekStart false])) ∧
    seekStarts (seekUp cfg0 (fun _ => (false, 100))).2 ≤ 2 ∧
    seekStarts (seekDown cfg0 (fun _ => (false, 100))).2 ≤ 2 :=
  seek_sentinel cfg0 cfg0_ok false 100 (fun _ => (false, 100))

/-- Claim C7 (amended): the power-up sequence is exactly read, write,
500 ms delay, read, write, 110 ms delay (the second delay the shorter);
the first write differs from the first read only in TEST1 (word 13),
where it sets the oscillator-enable bit XOSCEN (bit 15) and keeps the
lower 15 bits; the second write differs from the second read only in
POWERCFG (word 8), where it sets ENABLE (bit 0), clears DISABLE (bit 6)
and sets DMUTE (bit 14, mute disable, i.e. un-mutes), keeping all other
POWERCFG bits. -/
theorem powerUp_sequence (r1 r2 : Fin 16 → Nat) :
    ∃ s1 s2 : Fin 16 → Nat,
      powerUp r1 r2 = [TraceEv.readShadow, TraceEv.writeShadow s1, TraceEv.delay 500,
        TraceEv.readShadow, TraceEv.writeShadow s2, TraceEv.delay 110] ∧
      (110 : Nat) < 500 ∧
      getField (s1 13) 15 1 = 1 ∧ s1 13 % 2 ^ 15 = r1 13 % 2 ^ 15 ∧
      (∀ i : Fin 16, i ≠ 13 → s1 i = r1 i) ∧
      getField (s2 8) 0 1 = 1 ∧ getField (s2 8) 6 1 = 0 ∧ getField (s2 8) 14 1 = 1 ∧
      getField (s2 8) 1 5 = getField (r2 8) 1 5 ∧
      getField (s2 8) 7 7 = getField (r2 8) 7 7 ∧
      getField (s2 8) 15 1 = getField (r2 8) 15 1 ∧
      (∀ i : Fin 16, i ≠ 8 → s2 i = r2 i) := by
  refine ⟨Function.update r1 13 (setField (r1 13) 15 1 1),
    Function.update r2 8 (setField (setField (setField (r2 8) 0 1 1) 6 1 0) 14 1 1),
    rfl, by norm_num, ?_, ?_, fun i hi => Function.update_noteq hi _ _,
    ?_, ?_, ?_, ?_, ?_, ?_, fun i hi => Function.update_noteq hi _ _⟩ <;>
    rw [Function.update_same] <;> simp only [getField, setField] <;> norm_num <;> omega

/-- Claim C7 counterexample: the second control write of the power-up
sequence has the DMUTE (mute-disable) bit of POWERCFG equal to 1, not 0:
the code sets the bit (un-muting), it does not clear it. -/
theorem powerUp_dmute_not_cleared :
    getField ((writesOf (powerUp zeroShadow zeroShadow)).getD 1 zeroShadow 8) 14 1 ≠ 0 := by
  decide

/-- The write loop only produces the result codes 0, 2 and 3. -/
theorem putLoop_codes (acks : Nat → Bool) (ws : List Nat) :
    (putLoop acks ws).1 = 0 ∨ (putLoop acks ws).1 = 2 ∨ (putLoop acks ws).1 = 3 := by
  induction ws generalizing acks with
  | nil => exact Or.inl rfl
  | cons w ws ih =>
    cases h0 : acks 0 with
    | false => simp [putLoop, h0]
    | true =>
      cases h1 : acks 1 with
      | false => simp [putLoop, h0, h1]
      | true => simpa [putLoop, h0, h1] using ih (fun n => acks (n + 2))

/-- When every byte is acknowledged, the write loop sends all words
(upper byte then lower byte each), stops, and reports success. -/
theorem putLoop_success (acks : Nat → Bool) (ws : List Nat)
    (h : ∀ i, i < 2 * ws.length → acks i = true) :
    putLoop acks ws = (0, (ws.flatMap wordBytes).map BusEv.writeByte ++ [BusEv.stop]) := by
  induction ws generalizing acks with
  | nil => simp [putLoop]
  | cons w ws ih =>
    have h0 : acks 0 = true := h 0 (by simp only [List.length_cons]; omega)
    have h1 : acks 1 = true := h 1 (by simp only [List.length_cons]; omega)
    have hrec := ih (fun n => acks (n + 2))
      (fun i hi => h (i + 2) (by simp only [List.length_cons] at hi ⊢; omega))
    simp [putLoop, h0, h1, hrec, wordBytes]

/-- When the first refused byte is the upper byte of word `j` (loop byte
position `2 * j`), the loop sends the first `2 * j + 1` payload bytes,
stops, and reports code 2. -/
theorem putLoop_nack_upper (acks : Nat → Bool) (ws : List Nat) (j : Nat)
    (hj : j < ws.length) (hnack : acks (2 * j) = false)
    (hprev : ∀ i, i < 2 * j → acks i = true) :
    putLoop acks ws =
      (2, ((ws.flatMap wordBytes).take (2 * j + 1)).map BusEv.writeByte ++ [BusEv.stop]) := by
  induction ws generalizing acks j with
  | nil => simp at hj
  | cons w ws ih =>
    cases j with
    | zero =>
      have h0 : acks 0 = false := by simpa using hnack
      simp [putLoop, h0, wordBytes]
    | succ j =>
      have h0 : acks 0 = true := hprev 0 (by omega)
      have h1 : acks 1 = true := hprev 1 (by omega)
      have hnack2 : acks (2 * j + 2) = false := by
        rw [show 2 * j + 2 = 2 * (j + 1) by ring]; exact hnack
      have hrec := ih (fun n => acks (n + 2)) j
        (by simp only [List.length_cons] at hj; omega)
        hnack2 (fun i hi => hprev (i + 2) (by omega))
      rw [show 2 * (j + 1) + 1 = 2 * j + 1 + 1 + 1 by ring]
      simp [putLoop, h0, h1, hrec, wordBytes, List.take_succ_cons]

/-- When the first refused byte is the lower byte of word `j` (loop byte
position `2 * j + 1`), the loop sends the first `2 * j + 2` payload
bytes, stops, and reports code 3. -/
theorem putLoop_nack_lower (acks : Nat → Bool) (ws : List Nat) (j : Nat)
    (hj : j < ws.length) (hnack : acks (2 * j + 1) = false)
    (hprev : ∀ i, i < 2 * j + 1 → acks i = true) :
    putLoop acks ws =
      (3, ((ws.flatMap wordBytes).take (2 * j + 2)).map BusEv.writeByte ++ [BusEv.stop]) := by
  induction ws generalizing acks j with
  | nil => simp at hj
  | cons w ws ih =>
    cases j with
    | zero =>
      have h0 : acks 0 = true := hprev 0 (by omega)
      have h1 : acks 1 = false := by simpa using hnack
      simp [putLoop, h0, h1, wordBytes]
    | succ j =>
      have h0 : acks 0 = true := hprev 0 (by omega)
      have h1 : acks 1 = true := hprev 1 (by omega)
      have hnack2 : acks (2 * j + 1 + 2) = false := by
        rw [show 2 * j + 1 + 2 = 2 * (j + 1) + 1 by ring]; exact hnack
      have hrec := ih (fun n => acks (n + 2)) j
        (by simp only [List.length_cons] at hj; omega)
        hnack2 (fun i hi => hprev (i + 2) (by omega))
      rw [show 2 * (j + 1) + 2 = 2 * j + 2 + 1 + 1 by ring]
      simp [putLoop, h0, h1, hrec, wordBytes, List.take_succ_cons]

/-- Claim C6: `putShadow` sends exactly shadow words 8..13 (device
registers 0x02..0x07, 12 payload bytes, upper byte before lower byte in
ascending register order) after the address byte, and returns a four-way
code: 0 on success, 1 when the address byte is not acknowledged, 2 when
an upper byte is not acknowledged, 3 when a lower byte is not
acknowledged; in every failure case it stops the transaction right after
the first refused byte. -/
theorem putShadow_protocol (acks : Nat → Bool) (sh : Fin 16 → Nat) :
    ((putShadow acks sh).1 = 0 ∨ (putShadow acks sh).1 = 1 ∨
      (putShadow acks sh).1 = 2 ∨ (putShadow acks sh).1 = 3) ∧
    (controlBytes sh).length = 12 ∧
    ((∀ i, i ≤ 12 → acks i = true) →
      putShadow acks sh = (0, BusEv.start :: BusEv.writeByte (I2C_ADDR <<< 1) ::
        ((controlBytes sh).map BusEv.writeByte ++ [BusEv.stop]))) ∧
    (acks 0 = false →
      putShadow acks sh = (1, [BusEv.start, BusEv.writeByte (I2C_ADDR <<< 1), BusEv.stop])) ∧
    (∀ j, j ≤ 5 → acks (2 * j + 1) = false → (∀ i, i < 2 * j + 1 → acks i = true) →
      putShadow acks sh = (2, BusEv.start :: BusEv.writeByte (I2C_ADDR <<< 1) ::
        (((controlBytes sh).take (2 * j + 1)).map BusEv.writeByte ++ [BusEv.stop]))) ∧
    (∀ j, j ≤ 5 → acks (2 * j + 2) = false → (∀ i, i < 2 * j + 2 → acks i = true) →
      putShadow acks sh = (3, BusEv.start :: BusEv.writeByte (I2C_ADDR <<< 1) ::
        (((controlBytes sh).take (2 * j + 2)).map BusEv.writeByte ++ [BusEv.stop]))) := by
  have hlen : (controlWords sh).length = 6 := rfl
  refine ⟨?_, rfl, fun h => ?_, fun h => ?_, fun j hj hnack hprev => ?_, fun j hj hnack hprev => ?_⟩
  · cases h0 : acks 0 with
    | false => simp [putShadow, h0]
    | true =>
      have := putLoop_codes (fun n => acks (n + 1)) (controlWords sh)
      simp only [putShadow, h0, if_true]
      omega
  · have h0 : acks 0 = true := h 0 (by omega)
    have hloop := putLoop_success (fun n => acks (n + 1)) (controlWords sh)
      (fun i hi => h (i + 1) (by rw [hlen] at hi; omega))
    simp [putShadow, h0, hloop, controlBytes]
  · simp [putShadow, h]
  · have h0 : acks 0 = true := hprev 0 (by omega)
    have hnack2 : acks (2 * j + 1) = false := hnack
    have hloop := putLoop_nack_upper (fun n => acks (n + 1)) (controlWords sh) j
      (by rw [hlen]; omega) hnack2 (fun i hi => hprev (i + 1) (by omega))
    simp [putShadow, h0, hloop, controlBytes]
  · have h0 : acks 0 = true := hprev 0 (by omega)
    have hnack2 : acks (2 * j + 1 + 1) = false := by
      rw [show 2 * j + 1 + 1 = 2 * j + 2 by ring]
      exact hnack
    have hloop := putLoop_nack_lower (fun n => acks (n + 1)) (controlWords sh) j
      (by rw [hlen]; omega) hnack2 (fun i hi => hprev (i + 1) (by omega))
    simp [putShadow, h0, hloop, controlBytes]

/-- Claim C6 witness: with every byte acknowledged the full 12-byte
payload goes out with code 0; refusing the address byte gives code 1;
refusing transaction byte 3 (an upper byte) gives code 2; refusing
transaction byte 4 (a lower byte) gives code 3. -/
theorem putShadow_protocol_witness :
    putShadow (fun _ => true) shW = (0, BusEv.start :: BusEv.writeByte (I2C_ADDR <<< 1) ::
      ((controlBytes shW).map BusEv.writeByte ++ [BusEv.stop])) ∧
    (putShadow (fun _ => false) shW).1 = 1 ∧
    (putShadow (fun i => decide (i ≠ 3)) shW).1 = 2 ∧
    (putShadow (fun i => decide (i ≠ 4)) shW).1 = 3 :=
  ⟨(putShadow_protocol (fun _ => true) shW).2.2.1 (fun _ _ => rfl),
   by rw [(putShadow_protocol (fun _ => false) shW).2.2.2.1 rfl],
   by rw [(putShadow_protocol (fun i => decide (i ≠ 3)) shW).2.2.2.2.1 1
     (by omega) (by decide) (by decide)],
   by rw [(putShadow_protocol (fun i => decide (i ≠ 4)) shW).2.2.2.2.2 1
     (by omega) (by decide) (by decide)]⟩

end Si4703
